import Mathlib

/-!
Verification of the nutrition-ledger storage engine of `app.py`.

The stored document (GitHubStorage schema, also used by LocalStorage) is

  { "targets": { user_id: {protein,fat,carbs} },
    "records": { user_id: [ {id, food, weight, protein, fat, carbs, time}, ... ] },
    "food_db": { food: {base_weight, protein, fat, carbs, category}, ... },
    "next_record_id": 1 }

We embed it shallowly: the `targets` and `food_db` dicts become
`Option`-valued functions (every read in the source is a `dict.get` returning
`None` on a missing key), the `records` dict becomes a function defaulting to
the empty list (every read is `.get(user_id, [])`), numeric values (Python
floats) become rationals, timestamps are reduced to the day index that
`datetime.date()` extracts, since the source only ever compares dates for
equality.  The ambient clock `datetime.utcnow()` is passed explicitly as a
`today` parameter.
-/

namespace NutritionLedger

/-- One entry of a user's record list: `{id, food, weight, protein, fat,
carbs, time}` as appended by `add_record`.  `time` is the day index of the
stored timestamp (the source only compares `datetime.fromisoformat(t).date()`
with a current date). -/
structure DailyRecord where
  id : Nat
  food : String
  weight : ℚ
  protein : ℚ
  fat : ℚ
  carbs : ℚ
  time : Nat
  deriving DecidableEq, Repr

/-- A per-user target `{protein, fat, carbs}` as stored by `set_target`. -/
structure UserTarget where
  protein : ℚ
  fat : ℚ
  carbs : ℚ
  deriving DecidableEq, Repr

/-- A food-catalog entry `{base_weight, protein, fat, carbs, category}` as
stored by `add_food_db`. -/
structure FoodEntry where
  base_weight : ℚ
  protein : ℚ
  fat : ℚ
  carbs : ℚ
  category : String
  deriving DecidableEq, Repr

/-- The whole JSON document held by the storage backend. -/
structure LedgerState where
  targets : String → Option UserTarget
  records : String → List DailyRecord
  food_db : String → Option FoodEntry
  next_record_id : Nat

/-- The bootstrap document `{"targets":{}, "records":{}, "food_db":{},
"next_record_id":1}` written when the data file does not exist yet. -/
def initState : LedgerState :=
  { targets := fun _ => none
    records := fun _ => []
    food_db := fun _ => none
    next_record_id := 1 }

/-- `GitHubStorage.set_target`: `state["targets"][user_id] =
{"protein":p,"fat":f,"carbs":c}` — an unconditional upsert. -/
def set_target (s : LedgerState) (user_id : String) (p f c : ℚ) : LedgerState :=
  { s with targets := Function.update s.targets user_id (some ⟨p, f, c⟩) }

/-- `GitHubStorage.get_target`: `state["targets"].get(user_id)`. -/
def get_target (s : LedgerState) (user_id : String) : Option UserTarget :=
  s.targets user_id

/-- `GitHubStorage.add_food_db`: `state["food_db"][food] = {...}` — an
unconditional upsert. -/
def add_food_db (s : LedgerState) (food : String) (base_weight p f c : ℚ)
    (category : String) : LedgerState :=
  { s with food_db := Function.update s.food_db food (some ⟨base_weight, p, f, c, category⟩) }

/-- `GitHubStorage.get_food`: `state["food_db"].get(food)`. -/
def get_food (s : LedgerState) (food : String) : Option FoodEntry :=
  s.food_db food

/-- `GitHubStorage.add_record`: reads `next_record_id`, appends a fresh record
to the user's list and bumps `next_record_id`; returns the new record. -/
def add_record (s : LedgerState) (user_id food : String) (weight p f c : ℚ)
    (today : Nat) : LedgerState × DailyRecord :=
  let rid := s.next_record_id
  let r : DailyRecord := ⟨rid, food, weight, p, f, c, today⟩
  ({ s with
      records := Function.update s.records user_id (s.records user_id ++ [r])
      next_record_id := rid + 1 }, r)

/-- `GitHubStorage.get_today_records`: keeps the records whose stored date
equals the current date. -/
def get_today_records (s : LedgerState) (user_id : String) (today : Nat) :
    List DailyRecord :=
  (s.records user_id).filter (fun r => r.time == today)

/-- `GitHubStorage.delete_record`: removes the records with the given id from
`user_id`'s list and returns how many entries disappeared. -/
def delete_record (s : LedgerState) (rec_id : Nat) (user_id : String) :
    LedgerState × Nat :=
  let recs := s.records user_id
  let nw := recs.filter (fun r => r.id != rec_id)
  ({ s with records := Function.update s.records user_id nw },
   recs.length - nw.length)

/-- `GitHubStorage.clear_today`: removes the records dated today from
`user_id`'s list and returns how many were removed. -/
def clear_today (s : LedgerState) (user_id : String) (today : Nat) :
    LedgerState × Nat :=
  let recs := s.records user_id
  let nw := recs.filter (fun r => r.time != today)
  ({ s with records := Function.update s.records user_id nw },
   recs.length - nw.length)

/-- The mass-logging branch of `parse_text` (`食物 重量`): looks the food up in
the catalog, scales each macro by `weight / base_weight` (`factor = weight /
base if base > 0 else 0`) and appends the record; `none` models the
"food not in database" reply, where no record is stored. -/
def log_food (s : LedgerState) (user_id food : String) (weight : ℚ)
    (today : Nat) : Option (LedgerState × DailyRecord) :=
  match s.food_db food with
  | none => none
  | some fe =>
      let factor := if fe.base_weight > 0 then weight / fe.base_weight else 0
      some (add_record s user_id food weight (fe.protein * factor)
        (fe.fat * factor) (fe.carbs * factor) today)

/-- Helper: a filter and its complement split the length of a list. -/
lemma length_filter_add_length_filter_not (l : List DailyRecord) (p : DailyRecord → Bool) :
    (l.filter p).length + (l.filter (fun a => !(p a))).length = l.length := by
  induction l with
  | nil => rfl
  | cons a t ih => cases h : p a <;> simp [List.filter_cons, h] <;> omega

/-- C4: `add_record` assigns the new record's id from the current
`next_record_id` and increments the counter, so two consecutive calls for the
same food on the same day yield two records with distinct ids, both present in
the stored list (append-only, no merging). -/
theorem c4_append_only_distinct_ids (s : LedgerState) (u food : String)
    (w p f c w' p' f' c' : ℚ) (d d' : Nat) :
    (add_record s u food w p f c d).2.id = s.next_record_id ∧
    (add_record s u food w p f c d).1.next_record_id = s.next_record_id + 1 ∧
    (add_record (add_record s u food w p f c d).1 u food w' p' f' c' d').2.id
      = s.next_record_id + 1 ∧
    (add_record s u food w p f c d).2.id
      ≠ (add_record (add_record s u food w p f c d).1 u food w' p' f' c' d').2.id ∧
    (add_record s u food w p f c d).2
      ∈ (add_record (add_record s u food w p f c d).1 u food w' p' f' c' d').1.records u ∧
    (add_record (add_record s u food w p f c d).1 u food w' p' f' c' d').2
      ∈ (add_record (add_record s u food w p f c d).1 u food w' p' f' c' d').1.records u := by
  refine ⟨rfl, rfl, rfl, by simp [add_record], ?_, ?_⟩ <;>
    simp [add_record, Function.update_same]

/-- C5: `get_today_records` returns exactly the records of the user's stored
list whose date equals "today"; any record dated another day is excluded even
though it is still present in the stored list. -/
theorem c5_today_window (s : LedgerState) (u : String) (today : Nat)
    (r : DailyRecord) :
    r ∈ get_today_records s u today ↔ r ∈ s.records u ∧ r.time = today := by
  simp [get_today_records, List.mem_filter]

/-- C6: `delete_record` with an id not present in the user's list returns 0
and leaves the state unchanged; and deleting an id for user `u` never touches
another user's record list, even if that user owns a record with the same id. -/
theorem c6_delete_noop_and_user_isolation :
    (∀ s rec_id u, (∀ r ∈ s.records u, r.id ≠ rec_id) →
       (delete_record s rec_id u).2 = 0 ∧ (delete_record s rec_id u).1 = s) ∧
    (∀ s rec_id u v, v ≠ u →
       (delete_record s rec_id u).1.records v = s.records v) := by
  constructor
  · intro s rec_id u h
    have hf : (s.records u).filter (fun r => r.id != rec_id) = s.records u := by
      apply List.filter_eq_self.mpr
      intro r hr
      simpa using h r hr
    refine ⟨by simp [delete_record, hf], ?_⟩
    simp [delete_record, hf, Function.update_eq_self]
  · intro s rec_id u v hvu
    simp [delete_record, Function.update_noteq hvu]

/-- Witness for `c6_delete_noop_and_user_isolation` at a concrete state with a
single record of id 1 for user "A". -/
theorem c6_delete_noop_and_user_isolation_witness :
    ((delete_record (add_record initState "A" "x" 1 1 1 1 0).1 3 "A").2 = 0 ∧
     (delete_record (add_record initState "A" "x" 1 1 1 1 0).1 3 "A").1
       = (add_record initState "A" "x" 1 1 1 1 0).1) ∧
    (delete_record (add_record initState "A" "x" 1 1 1 1 0).1 1 "A").1.records "B"
      = (add_record initState "A" "x" 1 1 1 1 0).1.records "B" :=
  ⟨c6_delete_noop_and_user_isolation.1 _ 3 "A"
      (by intro r hr
          simp [add_record, initState, Function.update_same] at hr
          simp [hr]),
   c6_delete_noop_and_user_isolation.2 _ 1 "A" "B" (by decide)⟩

/-- C7: `clear_today` removes from the user's list exactly the records whose
date equals "today", returns the number of records removed, and keeps the
records dated any other day. -/
theorem c7_clear_today_exact (s : LedgerState) (u : String) (today : Nat) :
    (clear_today s u today).1.records u
      = (s.records u).filter (fun r => r.time != today) ∧
    (clear_today s u today).2
      = ((s.records u).filter (fun r => r.time == today)).length ∧
    (∀ r : DailyRecord,
       r ∈ (clear_today s u today).1.records u ↔
         r ∈ s.records u ∧ r.time ≠ today) := by
  refine ⟨by simp [clear_today, Function.update_same], ?_, ?_⟩
  · have h := length_filter_add_length_filter_not (s.records u)
      (fun r => r.time == today)
    simp only [clear_today]
    simp only [bne] at *
    omega
  · intro r
    simp [clear_today, Function.update_same, List.mem_filter]

/-- C10: each mutating operation touches only its own section of the state:
`add_record`, `delete_record` and `clear_today` leave `food_db`, `targets` and
every other user's record list unchanged; `set_target` leaves `food_db`,
`next_record_id` and all record lists unchanged; `add_food_db` leaves
`targets`, `next_record_id` and all record lists unchanged. -/
theorem c10_frame_effects :
    (∀ s u food w p f c d,
       (add_record s u food w p f c d).1.food_db = s.food_db ∧
       (add_record s u food w p f c d).1.targets = s.targets ∧
       ∀ v, v ≠ u → (add_record s u food w p f c d).1.records v = s.records v) ∧
    (∀ s rec_id u,
       (delete_record s rec_id u).1.food_db = s.food_db ∧
       (delete_record s rec_id u).1.targets = s.targets ∧
       ∀ v, v ≠ u → (delete_record s rec_id u).1.records v = s.records v) ∧
    (∀ s u d,
       (clear_today s u d).1.food_db = s.food_db ∧
       (clear_today s u d).1.targets = s.targets ∧
       ∀ v, v ≠ u → (clear_today s u d).1.records v = s.records v) ∧
    (∀ s u p f c,
       (set_target s u p f c).food_db = s.food_db ∧
       (set_target s u p f c).next_record_id = s.next_record_id ∧
       (set_target s u p f c).records = s.records) ∧
    (∀ s food bw p f c cat,
       (add_food_db s food bw p f c cat).targets = s.targets ∧
       (add_food_db s food bw p f c cat).next_record_id = s.next_record_id ∧
       (add_food_db s food bw p f c cat).records = s.records) := by
  refine ⟨fun s u food w p f c d => ⟨rfl, rfl, fun v hv => ?_⟩,
          fun s rec_id u => ⟨rfl, rfl, fun v hv => ?_⟩,
          fun s u d => ⟨rfl, rfl, fun v hv => ?_⟩,
          fun s u p f c => ⟨rfl, rfl, rfl⟩,
          fun s food bw p f c cat => ⟨rfl, rfl, rfl⟩⟩ <;>
    simp [add_record, delete_record, clear_today, Function.update_noteq hv]

/-- Witness for `c10_frame_effects`: user "B"'s list is untouched by each of
the three record mutations performed for user "A". -/
theorem c10_frame_effects_witness :
    (add_record initState "A" "x" 1 1 1 1 0).1.records "B" = initState.records "B" ∧
    (delete_record initState 1 "A").1.records "B" = initState.records "B" ∧
    (clear_today initState "A" 0).1.records "B" = initState.records "B" :=
  ⟨(c10_frame_effects.1 initState "A" "x" 1 1 1 1 0).2.2 "B" (by decide),
   (c10_frame_effects.2.1 initState 1 "A").2.2 "B" (by decide),
   (c10_frame_effects.2.2.1 initState "A" 0).2.2 "B" (by decide)⟩

/-- One mutating storage operation, with its arguments. -/
inductive Op
  | setTargetOp (u : String) (p f c : ℚ)
  | addFoodOp (food : String) (bw p f c : ℚ) (cat : String)
  | addRecordOp (u food : String) (w p f c : ℚ) (today : Nat)
  | deleteRecordOp (rec_id : Nat) (u : String)
  | clearTodayOp (u : String) (today : Nat)

/-- Apply one operation to the stored state. -/
def applyOp (s : LedgerState) : Op → LedgerState
  | .setTargetOp u p f c => set_target s u p f c
  | .addFoodOp food bw p f c cat => add_food_db s food bw p f c cat
  | .addRecordOp u food w p f c today => (add_record s u food w p f c today).1
  | .deleteRecordOp rec_id u => (delete_record s rec_id u).1
  | .clearTodayOp u today => (clear_today s u today).1

/-- The record ids an operation hands out when applied in state `s`:
`add_record` issues the current `next_record_id`, nothing else issues ids. -/
def opIssues (s : LedgerState) : Op → List Nat
  | .addRecordOp _ _ _ _ _ _ _ => [s.next_record_id]
  | _ => []

/-- Run a sequence of operations from `s`, returning the final state and
every record id issued along the way, in order. -/
def runOps (s : LedgerState) : List Op → LedgerState × List Nat
  | [] => (s, [])
  | op :: rest =>
      let out := runOps (applyOp s op) rest
      (out.1, opIssues s op ++ out.2)

lemma applyOp_next_le (s : LedgerState) (op : Op) :
    s.next_record_id ≤ (applyOp s op).next_record_id := by
  cases op <;> simp [applyOp, set_target, add_food_db, add_record,
    delete_record, clear_today]

lemma opIssues_bounds (s : LedgerState) (op : Op) :
    ∀ i ∈ opIssues s op, s.next_record_id ≤ i ∧ i < (applyOp s op).next_record_id := by
  cases op <;> simp [opIssues, applyOp, add_record]

lemma runOps_next_le (ops : List Op) :
    ∀ s : LedgerState, s.next_record_id ≤ (runOps s ops).1.next_record_id := by
  induction ops with
  | nil => intro s; simp [runOps]
  | cons op rest ih =>
      intro s
      exact le_trans (applyOp_next_le s op) (ih (applyOp s op))

lemma runOps_issued_bounds (ops : List Op) :
    ∀ s : LedgerState, ∀ i ∈ (runOps s ops).2,
      s.next_record_id ≤ i ∧ i < (runOps s ops).1.next_record_id := by
  induction ops with
  | nil => intro s i hi; simp [runOps] at hi
  | cons op rest ih =>
      intro s i hi
      simp only [runOps, List.mem_append] at hi
      rcases hi with hi | hi
      · rcases opIssues_bounds s op i hi with ⟨h1, h2⟩
        exact ⟨h1, lt_of_lt_of_le h2 (runOps_next_le rest (applyOp s op))⟩
      · rcases ih (applyOp s op) i hi with ⟨h1, h2⟩
        exact ⟨le_trans (applyOp_next_le s op) h1, h2⟩

lemma runOps_issued_sorted (ops : List Op) :
    ∀ s : LedgerState, (runOps s ops).2.Pairwise (· < ·) := by
  induction ops with
  | nil => intro s; simp [runOps]
  | cons op rest ih =>
      intro s
      simp only [runOps]
      rw [List.pairwise_append]
      refine ⟨?_, ih (applyOp s op), ?_⟩
      · cases op <;> simp [opIssues]
      · intro a ha b hb
        have h1 := (opIssues_bounds s op a ha).2
        have h2 := (runOps_issued_bounds rest (applyOp s op) b hb).1
        omega

/-- C2: over any sequence of storage operations run from the initial state,
`next_record_id` ends strictly greater than every record id ever issued, no id
is ever issued twice, and `delete_record` / `clear_today` never decrease or
reset `next_record_id`. -/
theorem c2_next_record_id_invariant :
    (∀ ops : List Op,
       (∀ i ∈ (runOps initState ops).2,
          i < (runOps initState ops).1.next_record_id) ∧
       (runOps initState ops).2.Nodup) ∧
    (∀ s rec_id u, (delete_record s rec_id u).1.next_record_id = s.next_record_id) ∧
    (∀ s u today, (clear_today s u today).1.next_record_id = s.next_record_id) := by
  refine ⟨fun ops => ⟨fun i hi => (runOps_issued_bounds ops initState i hi).2, ?_⟩,
          fun s rec_id u => rfl, fun s u today => rfl⟩
  exact (runOps_issued_sorted ops initState).imp ne_of_lt

/-- Witness for `c2_next_record_id_invariant`: a run that adds a record,
deletes it, then adds another still issues two distinct ids, both below the
final `next_record_id`. -/
theorem c2_next_record_id_invariant_witness :
    (runOps initState [Op.addRecordOp "A" "x" 1 1 1 1 0,
                       Op.deleteRecordOp 1 "A",
                       Op.addRecordOp "A" "y" 1 1 1 1 0]).2.Nodup :=
  (c2_next_record_id_invariant.1 _).2

/-- `GitHubStorage._save_file`: re-fetches the file to obtain whatever sha it
currently has and unconditionally PUTs the new content with that sha, so the
write never fails with a version mismatch: the remote document is simply
replaced by the data being written (last writer wins). -/
def save_file (_remote data : LedgerState) : LedgerState := data

/-- One caller's read-modify-write cycle for `add_record`: `_read_state` gave
it `readDoc`; this is the full document it will hand to `_write_state`. -/
def rmw_add_record (readDoc : LedgerState) (u food : String) (w p f c : ℚ)
    (today : Nat) : LedgerState :=
  (add_record readDoc u food w p f c today).1

/-- Two concurrent `add_record` callers whose `_read_state` calls both happen
before either `_write_state`: both read `doc0`, then their writes land in
turn. -/
def interleaved_two_adds (doc0 : LedgerState) (u : String) : LedgerState :=
  let afterA := save_file doc0 (rmw_add_record doc0 u "foodA" 1 1 1 1 0)
  save_file afterA (rmw_add_record doc0 u "foodB" 2 2 2 2 0)

/-- `n` sequential `add_record` calls, each reading the document the previous
one wrote. -/
def seq_adds (u food : String) (w p f c : ℚ) (today : Nat) :
    Nat → LedgerState → LedgerState
  | 0, s => s
  | n + 1, s => seq_adds u food w p f c today n (add_record s u food w p f c today).1

/-- C1 fails on the code: two concurrent `add_record` callers that both read
the initial document end with a record count of 1, not 2 — the first caller's
update is lost, because `_save_file` overwrites unconditionally instead of
performing a compare-and-swap. -/
theorem c1_lost_update_counterexample :
    ((interleaved_two_adds initState "A").records "A").length = 1 ∧
    ((interleaved_two_adds initState "A").records "A").length ≠ 2 := by
  constructor <;>
    simp [interleaved_two_adds, save_file, rmw_add_record, add_record,
      initState, Function.update_same]

/-- C1 amended: the blob backend's write is unconditional (no version
mismatch is ever reported, so there is no retry and no `ConcurrencyError`),
and updates are preserved only for sequential callers: `n` `add_record` calls
each reading the previous write grow the user's record count by exactly `n`. -/
theorem c1_amended_last_writer_wins :
    (∀ remote data : LedgerState, save_file remote data = data) ∧
    (∀ (u food : String) (w p f c : ℚ) (today n : Nat) (s : LedgerState),
       ((seq_adds u food w p f c today n s).records u).length
         = (s.records u).length + n) := by
  refine ⟨fun remote data => rfl, fun u food w p f c today n => ?_⟩
  induction n with
  | zero => intro s; simp [seq_adds]
  | succ m ih =>
      intro s
      have h1 : ((add_record s u food w p f c today).1.records u).length
          = (s.records u).length + 1 := by
        simp [add_record, Function.update_same]
      simp only [seq_adds, ih, h1]
      omega

/-- C3 fails on the code: `set_target` with negative values and `add_food_db`
with a zero portion and a negative macro both succeed and change the stored
state — no `ValidationError` is raised anywhere. -/
theorem c3_no_validation_counterexample :
    (set_target initState "u" (-1) (-2) (-3)).targets "u" = some ⟨-1, -2, -3⟩ ∧
    initState.targets "u" = none ∧
    (add_food_db initState "bad" 0 (-1) 0 0 "c").food_db "bad"
      = some ⟨0, -1, 0, 0, "c"⟩ ∧
    initState.food_db "bad" = none := by
  refine ⟨?_, rfl, ?_, rfl⟩ <;>
    simp [set_target, add_food_db, initState, Function.update_same]

/-- C3 amended: `set_target` and `add_food_db` validate nothing: each upserts
unconditionally, storing whatever values it is given — negative macros and
non-positive portions included — and the stored state is updated accordingly. -/
theorem c3_amended_unconditional_upsert :
    (∀ (s : LedgerState) (u : String) (p f c : ℚ),
       (set_target s u p f c).targets u = some ⟨p, f, c⟩) ∧
    (∀ (s : LedgerState) (food : String) (bw p f c : ℚ) (cat : String),
       (add_food_db s food bw p f c cat).food_db food = some ⟨bw, p, f, c, cat⟩) := by
  constructor <;> intros <;>
    simp [set_target, add_food_db, Function.update_same]

/-- A rational rounded to two decimal places, the precision at which the
spec's worked example states its expected macros. -/
def round2 (x : ℚ) : ℚ := (round (100 * x) : ℤ) / 100

/-- C8: a mass-logging command that resolves against the catalog stores each
macro as `catalog_macro * (logged_mass / reference_portion)`; for the oats
entry (portion 37.5, protein 4.9, fat 3, carbs 25.3), logging 100 g stores
macros that round to protein 13.07, fat 8, carbs 67.47. -/
theorem c8_mass_scaling :
    (∀ (s : LedgerState) (u food : String) (w : ℚ) (today : Nat) (fe : FoodEntry),
       s.food_db food = some fe → 0 < fe.base_weight →
       ∃ pr : LedgerState × DailyRecord,
         log_food s u food w today = some pr ∧
         pr.2.protein = fe.protein * (w / fe.base_weight) ∧
         pr.2.fat = fe.fat * (w / fe.base_weight) ∧
         pr.2.carbs = fe.carbs * (w / fe.base_weight)) ∧
    (log_food (add_food_db initState "oats" 37.5 4.9 3 25.3 "grain")
        "u" "oats" 100 0).map
        (fun pr => (round2 pr.2.protein, round2 pr.2.fat, round2 pr.2.carbs))
      = some (13.07, 8, 67.47) := by
  constructor
  · intro s u food w today fe hfe hpos
    refine ⟨add_record s u food w (fe.protein * (w / fe.base_weight))
        (fe.fat * (w / fe.base_weight)) (fe.carbs * (w / fe.base_weight)) today,
      ?_, rfl, rfl, rfl⟩
    simp [log_food, hfe, hpos]
  · simp [log_food, add_food_db, add_record, initState, Function.update_same,
      round2]
    norm_num [round_eq]

/-- Witness for `c8_mass_scaling` at the oats example. -/
theorem c8_mass_scaling_witness :
    ∃ pr : LedgerState × DailyRecord,
      log_food (add_food_db initState "oats" 37.5 4.9 3 25.3 "grain")
          "u" "oats" 100 0 = some pr ∧
      pr.2.protein = (4.9 : ℚ) * (100 / 37.5) ∧
      pr.2.fat = (3 : ℚ) * (100 / 37.5) ∧
      pr.2.carbs = (25.3 : ℚ) * (100 / 37.5) :=
  c8_mass_scaling.1 _ "u" "oats" 100 0 ⟨37.5, 4.9, 3, 25.3, "grain"⟩
    (by simp [add_food_db, Function.update_same]) (by norm_num)

/-- The raw percentage computed in `build_flex_today`:
`p_pct = (total_p/tp*100) if tp>0 else 0`. -/
def flex_pct (total target : ℚ) : ℚ :=
  if target > 0 then total / target * 100 else 0

/-- The number printed by `emoji_progress`: the percentage clamped to
`[0, 100]` (`pct = max(0.0, min(100.0, pct))`) and formatted as an integer
(`{pct:.0f}`). -/
def emoji_progress_value (pct : ℚ) : ℤ :=
  round (max 0 (min 100 pct))

/-- The percent-of-target the bot reports for one macro. -/
def reported_pct (total target : ℚ) : ℤ :=
  emoji_progress_value (flex_pct total target)

lemma round_mono_rat {x y : ℚ} (h : x ≤ y) : round x ≤ round y := by
  rw [round_eq, round_eq]
  exact Int.floor_mono (by linarith)

lemma round_hundred : round (100 : ℚ) = 100 := by
  norm_num [round_eq]

lemma round_min_hundred (x : ℚ) :
    round (min 100 x) = min 100 (round x) := by
  rcases le_total x 100 with h | h
  · rw [min_eq_right h, min_eq_right]
    calc round x ≤ round (100 : ℚ) := round_mono_rat h
      _ = 100 := round_hundred
  · rw [min_eq_left h, round_hundred, min_eq_left]
    calc (100 : ℤ) = round (100 : ℚ) := round_hundred.symm
      _ ≤ round x := round_mono_rat h

/-- C9: for nonnegative totals and targets, the percent reported for a macro
equals `min(100, round(100 * total / target))`, with a zero target reported
as 0 (no division by zero); with target 125 and total 60 the reported percent
is 48. -/
theorem c9_percent_of_target :
    (∀ total target : ℚ, 0 ≤ total → 0 ≤ target →
       reported_pct total target
         = if target = 0 then 0 else min 100 (round (100 * total / target))) ∧
    reported_pct 60 125 = 48 := by
  constructor
  · intro total target htot htar
    rcases eq_or_lt_of_le htar with h0 | hpos
    · rw [if_pos h0.symm]
      simp [reported_pct, flex_pct, emoji_progress_value, ← h0]
    · have hne : target ≠ 0 := ne_of_gt hpos
      rw [if_neg hne]
      have hx : (0 : ℚ) ≤ 100 * total / target := by positivity
      have hmin : (0 : ℚ) ≤ min 100 (100 * total / target) :=
        le_min (by norm_num) hx
      simp only [reported_pct, flex_pct, emoji_progress_value, if_pos hpos]
      rw [show total / target * 100 = 100 * total / target by ring,
        max_eq_right hmin, round_min_hundred]
  · have h : (60 : ℚ) / 125 * 100 = 48 := by norm_num
    simp [reported_pct, flex_pct, emoji_progress_value, h]
    norm_num [round_eq, min_def, max_def]

/-- Witness for `c9_percent_of_target` at total 60, target 125. -/
theorem c9_percent_of_target_witness :
    reported_pct 60 125
      = if (125 : ℚ) = 0 then 0 else min 100 (round ((100 : ℚ) * 60 / 125)) :=
  c9_percent_of_target.1 60 125 (by norm_num) (by norm_num)

end NutritionLedger
